import Mathlib

/-!
# Verification of the S-PAL policy-enforcement core (pci-contracts)

Shallow embedding of the repository's off-chain validator
(`src/validators/spal-enforcer.ts`, method `SPALEnforcer.validate`) and its
Plutus-Data codec (`src/lucid/datum-builders.ts`), together with proofs of the
specified properties.

Modelling conventions:

* TypeScript `bigint` and integral `number` values are modelled as `Int`.
* TypeScript strings are modelled as Lean `String` (sequences of Unicode
  scalar values; JS strings containing lone surrogates are outside the valid
  range assumed by the spec's string invariant).
* The generic Plutus `Data` value of Lucid Evolution, as seen by the
  TypeScript code (`Constr` nodes, `bigint` integers, and hex-string byte
  arrays), is modelled by `PDataJS`.  The serialized on-chain form, with
  byte-string leaves resolved to actual byte sequences, is modelled by
  `PData`; the injective, lossless CBOR byte layer applied by the external
  library below that level is abstracted as the `PData` tree itself.
* `Data.to` / `Data.from` of Lucid Evolution (external library, not part of
  this repository) are modelled by `dataTo` / `dataFrom`: `dataTo` lowers
  hex-string leaves to byte lists and fails exactly on strings that are not
  even-length sequences of hexadecimal digits (the behaviour of the
  underlying CML `from_hex`); `dataFrom` renders byte lists back as
  lowercase hex, which is what the library's `Data.from` produces.
* TypeScript exceptions are modelled with `Except String`, carrying the
  exact `Error` messages thrown by the source.
-/

/-- IdentityLinkage record (`src/types.ts`): three independent boolean flags. -/
structure IdentityLinkage where
  ephemeralRequired : Bool
  proofOfRootAllowed : Bool
  zkContinuityAllowed : Bool
deriving DecidableEq, Repr

/-- SPALPolicy record (`src/types.ts`). -/
structure SPALPolicy where
  id : String
  ownerPkh : String
  minPayment : Int
  maxRetentionMs : Int
  identityLinkage : IdentityLinkage
  requiredProofHash : String
  contextScope : String
deriving DecidableEq, Repr

/-- ValidationRequest record (`src/types.ts`). -/
structure ValidationRequest where
  policyId : String
  requesterDid : String
  proofReference : String
  accessTime : Int
  paymentAmount : Int
deriving DecidableEq, Repr

/-- ValidationResult record (`src/types.ts`): `error` is `none` when the
optional `error` property is absent. -/
structure ValidationResult where
  valid : Bool
  error : Option String
deriving DecidableEq, Repr

/-- JavaScript `String.prototype.startsWith`: code-unit prefix test, modelled
as a character-sequence prefix test (identical for the strings in scope, whose
characters are all in the Basic Multilingual Plane). -/
def jsStartsWith (s pre : String) : Bool :=
  pre.data.isPrefixOf s.data

/-- SPALEnforcer.validate (`src/validators/spal-enforcer.ts`, lines 132-168).
The three early-return checks of the source are rendered as a chain of
conditionals; each guard is the conjunction of the source's nested `if`s.
`policy.requiredProofHash && policy.requiredProofHash.length > 0` collapses to
the length test because an empty string is the only falsy string, and likewise
for `!request.proofReference || request.proofReference.length === 0`. -/
def validate (policy : SPALPolicy) (request : ValidationRequest) : ValidationResult :=
  if policy.identityLinkage.ephemeralRequired
      && !(jsStartsWith request.requesterDid "did:key:z") then
    { valid := false, error := some "Ephemeral DID (did:key) required for this policy" }
  else if decide (0 < policy.minPayment)
      && decide (request.paymentAmount < policy.minPayment) then
    { valid := false
      error := some ("Insufficient payment: required " ++ toString policy.minPayment
        ++ ", got " ++ toString request.paymentAmount) }
  else if decide (0 < policy.requiredProofHash.length)
      && decide (request.proofReference.length = 0) then
    { valid := false, error := some "Proof reference required but not provided" }
  else
    { valid := true, error := none }

/-- Generic Plutus Data value in its JavaScript-level representation, as
manipulated by `datum-builders.ts`: `Constr` nodes, `bigint` integers and
hex-string byte arrays.  (Lucid's `Data` also admits list and map nodes; the
repository never constructs them and every decoder in scope rejects any
non-`Constr` node, so they are not distinguished here.) -/
inductive PDataJS where
  | constr (index : Nat) (fields : List PDataJS)
  | int (i : Int)
  | str (s : String)

/-- Serialized Plutus Data tree: the JavaScript hex-string byte arrays lowered
to actual byte sequences.  Stands for the (injective, lossless) CBOR encoding
applied below this level by the external library. -/
inductive PData where
  | constr (index : Nat) (fields : List PData)
  | int (i : Int)
  | bytes (bs : List Nat)

/-- UTF-8 encoding of a single Unicode scalar value, by code-point range
(models `TextEncoder.encode` on one character). -/
def utf8EncodeChar (c : Char) : List Nat :=
  if c.toNat < 0x80 then [c.toNat]
  else if c.toNat < 0x800 then [0xC0 + c.toNat / 64, 0x80 + c.toNat % 64]
  else if c.toNat < 0x10000 then
    [0xE0 + c.toNat / 4096, 0x80 + c.toNat / 64 % 64, 0x80 + c.toNat % 64]
  else
    [0xF0 + c.toNat / 262144, 0x80 + c.toNat / 4096 % 64, 0x80 + c.toNat / 64 % 64,
      0x80 + c.toNat % 64]

/-- UTF-8 encoding of a string (models `new TextEncoder().encode(str)`). -/
def utf8Encode (s : List Char) : List Nat :=
  s.flatMap utf8EncodeChar

/-- Replacement character U+FFFD emitted by `TextDecoder` for malformed
sequences. -/
def replacementChar : Char := '�'

/-- UTF-8 decoding with U+FFFD substitution (models `new TextDecoder().decode`
in its default non-fatal mode; on well-formed UTF-8 input the two agree, and
only well-formed input ever reaches this function in the proofs below).
Lead-byte ranges, continuation bounds and the restart position after a
malformed byte follow the WHATWG decoder: overlong forms, surrogate encodings
and out-of-range 4-byte forms are rejected at the second byte. -/
def utf8Decode : List Nat → List Char
  | [] => []
  | b0 :: rest =>
    if b0 < 0x80 then
      Char.ofNat b0 :: utf8Decode rest
    else if b0 < 0xC2 then
      replacementChar :: utf8Decode rest
    else if b0 < 0xE0 then
      match rest with
      | [] => [replacementChar]
      | b1 :: rest1 =>
        if 0x80 ≤ b1 ∧ b1 < 0xC0 then
          Char.ofNat ((b0 - 0xC0) * 64 + (b1 - 0x80)) :: utf8Decode rest1
        else
          replacementChar :: utf8Decode (b1 :: rest1)
    else if b0 < 0xF0 then
      match rest with
      | [] => [replacementChar]
      | b1 :: rest1 =>
        if (if b0 = 0xE0 then 0xA0 else 0x80) ≤ b1 ∧
            b1 ≤ (if b0 = 0xED then 0x9F else 0xBF) then
          match rest1 with
          | [] => [replacementChar]
          | b2 :: rest2 =>
            if 0x80 ≤ b2 ∧ b2 < 0xC0 then
              Char.ofNat ((b0 - 0xE0) * 4096 + (b1 - 0x80) * 64 + (b2 - 0x80))
                :: utf8Decode rest2
            else
              replacementChar :: utf8Decode (b2 :: rest2)
        else
          replacementChar :: utf8Decode (b1 :: rest1)
    else if b0 < 0xF5 then
      match rest with
      | [] => [replacementChar]
      | b1 :: rest1 =>
        if (if b0 = 0xF0 then 0x90 else 0x80) ≤ b1 ∧
            b1 ≤ (if b0 = 0xF4 then 0x8F else 0xBF) then
          match rest1 with
          | [] => [replacementChar]
          | b2 :: rest2 =>
            if 0x80 ≤ b2 ∧ b2 < 0xC0 then
              match rest2 with
              | [] => [replacementChar]
              | b3 :: rest3 =>
                if 0x80 ≤ b3 ∧ b3 < 0xC0 then
                  Char.ofNat ((b0 - 0xF0) * 262144 + (b1 - 0x80) * 4096
                      + (b2 - 0x80) * 64 + (b3 - 0x80))
                    :: utf8Decode rest3
                else
                  replacementChar :: utf8Decode (b3 :: rest3)
            else
              replacementChar :: utf8Decode (b2 :: rest2)
        else
          replacementChar :: utf8Decode (b1 :: rest1)
    else
      replacementChar :: utf8Decode rest

/-- Two lowercase hex digits of a byte (models
`b.toString(16).padStart(2, "0")` for `b < 256`; `Nat.digitChar` yields the
same lowercase digits as JavaScript's `toString(16)`). -/
def byteToHex (b : Nat) : List Char :=
  [Nat.digitChar (b / 16), Nat.digitChar (b % 16)]

/-- Lowercase hex rendering of a byte sequence. -/
def bytesToHex (bs : List Nat) : List Char :=
  bs.flatMap byteToHex

/-- stringToHex (`datum-builders.ts`, lines 19-23): UTF-8 encode, then render
each byte as two lowercase hex digits. -/
def stringToHex (s : String) : String :=
  String.mk (bytesToHex (utf8Encode s.data))

/-- Numeric value of a hexadecimal digit character, upper or lower case
(models one `parseInt(c, 16)` digit; `parseInt` accepts both cases). -/
def hexCharVal? (c : Char) : Option Nat :=
  if '0' ≤ c ∧ c ≤ '9' then some (c.toNat - '0'.toNat)
  else if 'a' ≤ c ∧ c ≤ 'f' then some (c.toNat - 'a'.toNat + 10)
  else if 'A' ≤ c ∧ c ≤ 'F' then some (c.toNat - 'A'.toNat + 10)
  else none

/-- Value of one regex chunk of `hexToString` (one or two characters), with
`parseInt(chunk, 16)` semantics on hex-digit characters: a leading valid digit
is parsed even if the second character is not a digit, and a chunk with no
leading digit gives `NaN`, which the `Uint8Array` constructor coerces to 0.
(`parseInt`'s tolerance of leading whitespace and sign characters is not
modelled; no input in scope contains them.) -/
def hexChunkVal : List Char → Nat
  | [c] => (hexCharVal? c).getD 0
  | [c1, c2] =>
    match hexCharVal? c1 with
    | none => 0
    | some h =>
      match hexCharVal? c2 with
      | none => h
      | some l => h * 16 + l
  | _ => 0

/-- Chunking performed by `hex.match(/.{1,2}/g)`: successive pairs, with a
final singleton when the length is odd.  (The regex would skip a newline
character, which cannot occur in the inputs in scope.) -/
def chunkPairs : List Char → List (List Char)
  | [] => []
  | [c] => [[c]]
  | c1 :: c2 :: rest => [c1, c2] :: chunkPairs rest

/-- hexToString (`datum-builders.ts`, lines 127-130): chunk the hex string,
parse each chunk as a byte, and UTF-8 decode the bytes. -/
def hexToString (hex : String) : String :=
  String.mk (utf8Decode ((chunkPairs hex.data).map hexChunkVal))

/-- Strict hexadecimal parsing of a whole string: succeeds exactly on
even-length strings of hex digits (either case).  Models the `from_hex`
conversion the external `Data.to` applies to every string leaf. -/
def hexToBytesStrict : List Char → Option (List Nat)
  | [] => some []
  | [_] => none
  | c1 :: c2 :: rest =>
    match hexCharVal? c1, hexCharVal? c2, hexToBytesStrict rest with
    | some h, some l, some bs => some ((h * 16 + l) :: bs)
    | _, _, _ => none

mutual

/-- Data.to of Lucid Evolution (external library), modelled down to the
serialized tree: every hex-string leaf is lowered to its byte sequence, and
the conversion fails exactly when some string leaf is not even-length hex,
which is the only failure the library's serializer can produce on the values
built by this repository. -/
def dataTo : PDataJS → Except String PData
  | .constr k fs => (dataToList fs).map (PData.constr k)
  | .int i => .ok (.int i)
  | .str s =>
    match hexToBytesStrict s.data with
    | some bs => .ok (.bytes bs)
    | none => .error "Data.to: invalid hex in byte string"

/-- Field-list traversal of `dataTo`. -/
def dataToList : List PDataJS → Except String (List PData)
  | [] => .ok []
  | d :: ds => do
    let w ← dataTo d
    let ws ← dataToList ds
    .ok (w :: ws)

end

mutual

/-- Data.from of Lucid Evolution (external library), modelled from the
serialized tree back to the JavaScript representation: byte-sequence leaves
are rendered as lowercase hex strings, which is what the library produces. -/
def dataFrom : PData → PDataJS
  | .constr k fs => .constr k (dataFromList fs)
  | .int i => .int i
  | .bytes bs => .str (String.mk (bytesToHex bs))

/-- Field-list traversal of `dataFrom`. -/
def dataFromList : List PData → List PDataJS
  | [] => []
  | d :: ds => dataFrom d :: dataFromList ds

end

/-- boolToData (`datum-builders.ts`, line 39): `new Constr(b ? 1 : 0, [])`. -/
def boolToData (b : Bool) : PDataJS :=
  .constr (if b then 1 else 0) []

/-- buildIdentityLinkage (`datum-builders.ts`, lines 37-46). -/
def buildIdentityLinkage (linkage : IdentityLinkage) : PDataJS :=
  .constr 0 [boolToData linkage.ephemeralRequired,
    boolToData linkage.proofOfRootAllowed,
    boolToData linkage.zkContinuityAllowed]

/-- buildPolicyDatum (`datum-builders.ts`, lines 63-72).
`policy.requiredProofHash || ""` is the identity on strings, since the only
falsy string is `""` itself; `BigInt(policy.maxRetentionMs)` is the identity
in the integer model. -/
def buildPolicyDatum (policy : SPALPolicy) : PDataJS :=
  .constr 0 [.str policy.ownerPkh,
    .int policy.minPayment,
    .int policy.maxRetentionMs,
    buildIdentityLinkage policy.identityLinkage,
    .str policy.requiredProofHash,
    .str (stringToHex policy.contextScope)]

/-- buildAccessRedeemer (`datum-builders.ts`, lines 87-94). -/
def buildAccessRedeemer (request : ValidationRequest) : PDataJS :=
  .constr 0 [.str (stringToHex request.requesterDid),
    .str request.proofReference,
    .int request.accessTime,
    .int request.paymentAmount]

/-- dataToBool, the boolean-leaf decoder local to `parseIdentityLinkage`
(`datum-builders.ts`, lines 110-115): throws on a non-`Constr` node and
otherwise returns `d.index === 1`, with no validation of the index. -/
def dataToBool : PDataJS → Except String Bool
  | .constr i _ => .ok (i == 1)
  | _ => .error "Invalid Bool data: expected Constr"

/-- String leaf access `fields[i] as string`: the TypeScript `as` cast is
unchecked, so an ill-typed field is passed through as type-confused junk
rather than rejected; the model maps that unspecified junk to `""`.  No
property proved below depends on the junk value. -/
def asStr : PDataJS → String
  | .str s => s
  | _ => ""

/-- Integer leaf access `fields[i] as bigint` (same unchecked-cast caveat as
`asStr`; junk modelled as 0). -/
def asInt : PDataJS → Int
  | .int i => i
  | _ => 0

/-- parseIdentityLinkage (`datum-builders.ts`, lines 99-122): requires a
`Constr` node with exactly 3 fields (the constructor index is never
inspected), then decodes the three boolean leaves in order. -/
def parseIdentityLinkage : PDataJS → Except String IdentityLinkage
  | .constr _ [f0, f1, f2] => do
    let b0 ← dataToBool f0
    let b1 ← dataToBool f1
    let b2 ← dataToBool f2
    .ok { ephemeralRequired := b0, proofOfRootAllowed := b1, zkContinuityAllowed := b2 }
  | .constr _ fields =>
    .error ("Invalid IdentityLinkage data: expected 3 fields, got "
      ++ toString fields.length)
  | _ => .error "Invalid IdentityLinkage data: expected Constr"

/-- parsePolicyDatum (`datum-builders.ts`, lines 135-154): requires a `Constr`
node with exactly 6 fields (the constructor index is never inspected); `id` is
always set to `""` because the policy id is not stored in the datum. -/
def parsePolicyDatum : PDataJS → Except String SPALPolicy
  | .constr _ [f0, f1, f2, f3, f4, f5] => do
    let linkage ← parseIdentityLinkage f3
    .ok { id := ""
          ownerPkh := asStr f0
          minPayment := asInt f1
          maxRetentionMs := asInt f2
          identityLinkage := linkage
          requiredProofHash := asStr f4
          contextScope := hexToString (asStr f5) }
  | .constr _ fields =>
    .error ("Invalid PolicyDatum data: expected 6 fields, got "
      ++ toString fields.length)
  | _ => .error "Invalid PolicyDatum data: expected Constr"

/-- Modelled from the spec: the repository has no AccessRequest (redeemer)
decoder under `src/` (only the encoder `buildAccessRedeemer` exists), while
the spec states that "`encode`/`decode` for `AccessRequest` mirror the above
with the 4-field shape".  This decoder follows the spec's words, mirroring
`parsePolicyDatum`: a `Constr` node with exactly 4 fields, decoded
positionally, the off-chain-only `policyId` restored as `""`. -/
def parseAccessRedeemer : PDataJS → Except String ValidationRequest
  | .constr _ [f0, f1, f2, f3] =>
    .ok { policyId := ""
          requesterDid := hexToString (asStr f0)
          proofReference := asStr f1
          accessTime := asInt f2
          paymentAmount := asInt f3 }
  | .constr _ fields =>
    .error ("Invalid AccessRedeemer data: expected 4 fields, got "
      ++ toString fields.length)
  | _ => .error "Invalid AccessRedeemer data: expected Constr"

/-- serializeDatum (`datum-builders.ts`, lines 159-162):
`Data.to(buildPolicyDatum(policy))`. -/
def serializeDatum (policy : SPALPolicy) : Except String PData :=
  dataTo (buildPolicyDatum policy)

/-- serializeRedeemer (`datum-builders.ts`, lines 167-170). -/
def serializeRedeemer (request : ValidationRequest) : Except String PData :=
  dataTo (buildAccessRedeemer request)

/-- deserializeDatum (`datum-builders.ts`, lines 175-178):
`parsePolicyDatum(Data.from(cbor))`. -/
def deserializeDatum (wire : PData) : Except String SPALPolicy :=
  parsePolicyDatum (dataFrom wire)

/-- Lowercase hexadecimal digit predicate. -/
def isLowerHexDigit (c : Char) : Prop :=
  ('0' ≤ c ∧ c ≤ '9') ∨ ('a' ≤ c ∧ c ≤ 'f')

instance (c : Char) : Decidable (isLowerHexDigit c) := by
  unfold isLowerHexDigit; infer_instance

/-- Canonical byte-array representation at the API boundary: even length,
lowercase hex digits (spec §4.1: "lowercase hex digits, two digits per byte,
no separators, no prefix"). -/
def CanonicalHex (s : String) : Prop :=
  s.data.length % 2 = 0 ∧ ∀ c ∈ s.data, isLowerHexDigit c

instance (s : String) : Decidable (CanonicalHex s) := by
  unfold CanonicalHex; infer_instance

/-- Valid `Policy` value in the sense of the spec's data-model invariants
(§3): a 28-byte lowercase-hex owner key hash, a lowercase-hex (possibly
empty) required-proof hash, and non-negative integer amounts. -/
def ValidPolicy (p : SPALPolicy) : Prop :=
  CanonicalHex p.ownerPkh ∧ p.ownerPkh.data.length = 56 ∧
    CanonicalHex p.requiredProofHash ∧ 0 ≤ p.minPayment ∧ 0 ≤ p.maxRetentionMs

instance (p : SPALPolicy) : Decidable (ValidPolicy p) := by
  unfold ValidPolicy; infer_instance

/-! ## Helper lemmas -/

/-- Emptiness of a string is equivalent to zero length. -/
theorem string_length_eq_zero_iff (s : String) : s.length = 0 ↔ s = "" := by
  cases s with
  | mk d =>
    constructor
    · intro h
      have hd : d = [] := by simpa [String.length] using h
      subst hd
      rfl
    · intro h
      have hd : d = [] := congrArg String.data h
      simp [String.length, hd]

/-- Non-emptiness of a string is equivalent to positive length. -/
theorem string_length_pos_iff (s : String) : 0 < s.length ↔ s ≠ "" := by
  rw [Nat.pos_iff_ne_zero]
  exact not_congr (string_length_eq_zero_iff s)

/-! ## Claim theorems: validator -/

/-- C1: `validate(policy, request)` returns valid exactly when the three
conditions hold: ephemeral-DID shape when required, payment at least the
minimum when a minimum is set (zero minimum imposing nothing), and a
non-empty proof reference when a proof hash is required (empty hash imposing
nothing). -/
theorem validate_valid_iff (p : SPALPolicy) (r : ValidationRequest) :
    (validate p r).valid = true ↔
      ((p.identityLinkage.ephemeralRequired = true →
          jsStartsWith r.requesterDid "did:key:z" = true) ∧
        (0 < p.minPayment → p.minPayment ≤ r.paymentAmount) ∧
        (p.requiredProofHash ≠ "" → r.proofReference ≠ "")) := by
  unfold validate
  split_ifs with h1 h2 h3
  · simp only [Bool.and_eq_true, Bool.not_eq_true', decide_eq_true_eq] at h1
    simp only [show (false = true) = False by simp, false_iff]
    rintro ⟨ha, -, -⟩
    rw [ha h1.1] at h1
    exact absurd h1.2 (by simp)
  · simp only [Bool.and_eq_true, decide_eq_true_eq] at h2
    simp only [show (false = true) = False by simp, false_iff]
    rintro ⟨-, hb, -⟩
    have := hb h2.1
    omega
  · simp only [Bool.and_eq_true, decide_eq_true_eq] at h3
    simp only [show (false = true) = False by simp, false_iff]
    rintro ⟨-, -, hc⟩
    have h4 := hc ((string_length_pos_iff _).1 h3.1)
    exact h4 ((string_length_eq_zero_iff _).1 h3.2)
  · simp only [Bool.and_eq_true, Bool.not_eq_true', decide_eq_true_eq, not_and] at h1 h2 h3
    simp only [show (true = true) = True by simp, true_iff]
    refine ⟨fun ha => ?_, fun hb => ?_, fun hc => ?_⟩
    · by_contra hjs
      exact h1 ha (Bool.eq_false_iff.2 hjs)
    · by_contra hpay
      exact h2 hb (by omega)
    · intro hpr
      have := h3 ((string_length_pos_iff _).2 hc)
      exact this ((string_length_eq_zero_iff _).2 hpr)

/-- C7: the checks run in the fixed order identity-linkage, payment,
proof-presence, short-circuiting on the first failure: an ephemeral mismatch
surfaces the ephemeral reason regardless of later checks; a payment failure
with the identity check passing or inapplicable surfaces the message naming
both amounts; a proof-presence failure with the earlier checks passing
surfaces the proof reason; and a fully passing request is valid with no
reason. -/
theorem validate_check_order (p : SPALPolicy) (r : ValidationRequest) :
    (p.identityLinkage.ephemeralRequired = true →
      jsStartsWith r.requesterDid "did:key:z" = false →
      validate p r =
        { valid := false
          error := some "Ephemeral DID (did:key) required for this policy" }) ∧
    ((p.identityLinkage.ephemeralRequired = true →
        jsStartsWith r.requesterDid "did:key:z" = true) →
      0 < p.minPayment → r.paymentAmount < p.minPayment →
      validate p r =
        { valid := false
          error := some ("Insufficient payment: required " ++ toString p.minPayment
            ++ ", got " ++ toString r.paymentAmount) }) ∧
    ((p.identityLinkage.ephemeralRequired = true →
        jsStartsWith r.requesterDid "did:key:z" = true) →
      (0 < p.minPayment → p.minPayment ≤ r.paymentAmount) →
      p.requiredProofHash ≠ "" → r.proofReference = "" →
      validate p r =
        { valid := false, error := some "Proof reference required but not provided" }) ∧
    ((p.identityLinkage.ephemeralRequired = true →
        jsStartsWith r.requesterDid "did:key:z" = true) →
      (0 < p.minPayment → p.minPayment ≤ r.paymentAmount) →
      (p.requiredProofHash ≠ "" → r.proofReference ≠ "") →
      validate p r = { valid := true, error := none }) := by
  refine ⟨fun he hjs => ?_, fun hid hmin hpay => ?_, fun hid hpaid hhash hpr => ?_,
    fun hid hpaid hproof => ?_⟩
  · unfold validate
    rw [if_pos (by simp [he, hjs])]
  · unfold validate
    rw [if_neg, if_pos (by simp [hmin, hpay])]
    simp only [Bool.and_eq_true, Bool.not_eq_true', not_and]
    intro ha
    rw [hid ha]
    simp
  · unfold validate
    rw [if_neg, if_neg, if_pos]
    · simp only [Bool.and_eq_true, decide_eq_true_eq]
      exact ⟨(string_length_pos_iff _).2 hhash, (string_length_eq_zero_iff _).2 hpr⟩
    · simp only [Bool.and_eq_true, decide_eq_true_eq, not_and]
      intro hmin
      have hle := hpaid hmin
      omega
    · simp only [Bool.and_eq_true, Bool.not_eq_true', not_and]
      intro ha
      rw [hid ha]
      simp
  · unfold validate
    rw [if_neg, if_neg, if_neg]
    · simp only [Bool.and_eq_true, decide_eq_true_eq, not_and]
      intro hlen
      have := hproof ((string_length_pos_iff _).1 hlen)
      exact fun h0 => this ((string_length_eq_zero_iff _).1 h0)
    · simp only [Bool.and_eq_true, decide_eq_true_eq, not_and]
      intro hmin
      have hle := hpaid hmin
      omega
    · simp only [Bool.and_eq_true, Bool.not_eq_true', not_and]
      intro ha
      rw [hid ha]
      simp

/-- Concrete policy fixture: ephemeral identity required, payment of at least
1000000 required, no proof required. -/
def policyEphPay : SPALPolicy :=
  { id := "p1", ownerPkh := "ab", minPayment := 1000000, maxRetentionMs := 0,
    identityLinkage := ⟨true, false, false⟩, requiredProofHash := "", contextScope := "a" }

/-- Concrete policy fixture: only a proof reference is required. -/
def policyProofOnly : SPALPolicy :=
  { id := "p1", ownerPkh := "ab", minPayment := 0, maxRetentionMs := 0,
    identityLinkage := ⟨false, false, false⟩, requiredProofHash := "abcd1234",
    contextScope := "a" }

/-- Concrete policy fixture: all three checks active. -/
def policyAll : SPALPolicy :=
  { id := "p1", ownerPkh := "ab", minPayment := 1000000, maxRetentionMs := 0,
    identityLinkage := ⟨true, false, false⟩, requiredProofHash := "abcd1234",
    contextScope := "a" }

/-- Concrete request fixture: persistent-scheme DID, no payment, no proof. -/
def requestWeb : ValidationRequest :=
  { policyId := "p1", requesterDid := "did:web:abc", proofReference := "",
    accessTime := 0, paymentAmount := 0 }

/-- Concrete request fixture: ephemeral DID, underpaying. -/
def requestUnderpay : ValidationRequest :=
  { policyId := "p1", requesterDid := "did:key:zXyz", proofReference := "",
    accessTime := 0, paymentAmount := 500000 }

/-- Concrete request fixture: ephemeral DID, overpaying, proof supplied. -/
def requestFull : ValidationRequest :=
  { policyId := "p1", requesterDid := "did:key:zXyz", proofReference := "ref",
    accessTime := 0, paymentAmount := 2000000 }

/-- Witness for `validate_check_order`: the four conjuncts applied at concrete
policies and requests; in the first, the payment is also insufficient, yet the
surfaced reason is the ephemeral one. -/
theorem validate_check_order_witness :
    (validate policyEphPay requestWeb =
      { valid := false
        error := some "Ephemeral DID (did:key) required for this policy" }) ∧
    (validate policyEphPay requestUnderpay =
      { valid := false
        error := some "Insufficient payment: required 1000000, got 500000" }) ∧
    (validate policyProofOnly requestWeb =
      { valid := false, error := some "Proof reference required but not provided" }) ∧
    (validate policyAll requestFull = { valid := true, error := none }) :=
  ⟨(validate_check_order _ _).1 (by decide) (by decide),
    (validate_check_order _ _).2.1 (fun _ => by decide) (by decide) (by decide),
    (validate_check_order _ _).2.2.1 (by decide) (by decide) (by decide) (by decide),
    (validate_check_order _ _).2.2.2 (fun _ => by decide) (by decide) (by decide)⟩

/-- C9: the validator's outcome depends only on the fields it checks.  Two
policy/request pairs agreeing on `identityLinkage`, `minPayment`,
`requiredProofHash`, `requesterDid`, `paymentAmount` and on the emptiness of
`proofReference` produce identical results, whatever `ownerPkh`,
`maxRetentionMs`, `contextScope`, `accessTime`, `id`, `policyId` or the
content of a non-empty `proofReference` may be. -/
theorem validate_ignores_unchecked (p1 p2 : SPALPolicy) (r1 r2 : ValidationRequest)
    (hIL : p1.identityLinkage = p2.identityLinkage)
    (hMin : p1.minPayment = p2.minPayment)
    (hHash : p1.requiredProofHash = p2.requiredProofHash)
    (hDid : r1.requesterDid = r2.requesterDid)
    (hPay : r1.paymentAmount = r2.paymentAmount)
    (hProof : r1.proofReference = "" ↔ r2.proofReference = "") :
    validate p1 r1 = validate p2 r2 := by
  have hlen : (decide (r1.proofReference.length = 0))
      = (decide (r2.proofReference.length = 0)) := by
    rw [decide_eq_decide, string_length_eq_zero_iff, string_length_eq_zero_iff]
    exact hProof
  unfold validate
  rw [hIL, hMin, hHash, hDid, hPay, hlen]

/-- Witness for `validate_ignores_unchecked`: a pair of concrete
policy/request pairs differing in `ownerPkh`, `maxRetentionMs`,
`contextScope`, `accessTime` and in the content of the non-empty proof
reference, with equal outcomes. -/
theorem validate_ignores_unchecked_witness :
    validate policyAll requestFull =
      validate
        { policyAll with ownerPkh := "cdcd", maxRetentionMs := 999, contextScope := "x/y" }
        { requestFull with proofReference := "other-ref", accessTime := 123 } :=
  validate_ignores_unchecked _ _ _ _ rfl rfl rfl rfl rfl (by decide)

/-! ## Claim theorems: codec shape and error behaviour -/

/-- Concrete well-typed 6-field policy datum with adversarial constructor
indices (99 at the record node, 3 and 5 at inner nodes). -/
def demoDatumFields : List PDataJS :=
  [.str "abcd", .int 5, .int 7,
    .constr 3 [.constr 1 [], .constr 0 [], .constr 5 []],
    .str "ef", .str "6869"]

/-- Policy decoded from `demoDatumFields` ("6869" is the UTF-8 hex of "hi"). -/
def demoParsedPolicy : SPALPolicy :=
  { id := "", ownerPkh := "abcd", minPayment := 5, maxRetentionMs := 7,
    identityLinkage := ⟨true, false, false⟩, requiredProofHash := "ef",
    contextScope := "hi" }

/-- C3 counterexample: the boolean-leaf decoder does not fail on constructor
index 2; it silently decodes it as `false`. -/
theorem dataToBool_index_two_counterexample :
    dataToBool (PDataJS.constr 2 []) = Except.ok false := rfl

/-- C3 as amended: booleans encode as exactly `Constructor(0, [])` for false
and `Constructor(1, [])` for true, and the boolean-leaf decoder never fails on
a constructor node: it decodes index 1 as true and every other index as false
(`d.index === 1`), failing only on non-constructor nodes. -/
theorem bool_codec_amended :
    boolToData false = PDataJS.constr 0 [] ∧
    boolToData true = PDataJS.constr 1 [] ∧
    (∀ (k : Nat) (fs : List PDataJS),
      dataToBool (PDataJS.constr k fs) = Except.ok (k == 1)) ∧
    (∀ i : Int, dataToBool (PDataJS.int i) = Except.error "Invalid Bool data: expected Constr") :=
  ⟨rfl, rfl, fun _ _ => rfl, fun _ => rfl⟩

/-- C4: decoding a constructor tree with the wrong field count fails with the
field-count error: ≠ 3 for `IdentityLinkage`, ≠ 6 for `Policy` (both from the
source), and ≠ 4 for the spec-modelled `AccessRequest` decoder. -/
theorem wrong_field_count_errors :
    (∀ (k : Nat) (fs : List PDataJS), fs.length ≠ 3 →
      parseIdentityLinkage (PDataJS.constr k fs) =
        Except.error ("Invalid IdentityLinkage data: expected 3 fields, got "
          ++ toString fs.length)) ∧
    (∀ (k : Nat) (fs : List PDataJS), fs.length ≠ 6 →
      parsePolicyDatum (PDataJS.constr k fs) =
        Except.error ("Invalid PolicyDatum data: expected 6 fields, got "
          ++ toString fs.length)) ∧
    (∀ (k : Nat) (fs : List PDataJS), fs.length ≠ 4 →
      parseAccessRedeemer (PDataJS.constr k fs) =
        Except.error ("Invalid AccessRedeemer data: expected 4 fields, got "
          ++ toString fs.length)) := by
  refine ⟨fun k fs h => ?_, fun k fs h => ?_, fun k fs h => ?_⟩
  · rcases fs with _ | ⟨a, _ | ⟨b, _ | ⟨c, _ | ⟨d, rest⟩⟩⟩⟩
    · rfl
    · rfl
    · rfl
    · exact absurd rfl h
    · rfl
  · rcases fs with _ | ⟨a, _ | ⟨b, _ | ⟨c, _ | ⟨d, _ | ⟨e, _ | ⟨f, _ | ⟨g, rest⟩⟩⟩⟩⟩⟩⟩
    · rfl
    · rfl
    · rfl
    · rfl
    · rfl
    · rfl
    · exact absurd rfl h
    · rfl
  · rcases fs with _ | ⟨a, _ | ⟨b, _ | ⟨c, _ | ⟨d, _ | ⟨e, rest⟩⟩⟩⟩⟩
    · rfl
    · rfl
    · rfl
    · rfl
    · exact absurd rfl h
    · rfl

/-- Witness for `wrong_field_count_errors`: the three decoders applied to a
0-field constructor node. -/
theorem wrong_field_count_errors_witness :
    parseIdentityLinkage (PDataJS.constr 0 []) =
      Except.error ("Invalid IdentityLinkage data: expected 3 fields, got "
        ++ toString ([] : List PDataJS).length) ∧
    parsePolicyDatum (PDataJS.constr 0 []) =
      Except.error ("Invalid PolicyDatum data: expected 6 fields, got "
        ++ toString ([] : List PDataJS).length) ∧
    parseAccessRedeemer (PDataJS.constr 0 []) =
      Except.error ("Invalid AccessRedeemer data: expected 4 fields, got "
        ++ toString ([] : List PDataJS).length) :=
  ⟨wrong_field_count_errors.1 0 [] (by decide),
    wrong_field_count_errors.2.1 0 [] (by decide),
    wrong_field_count_errors.2.2 0 [] (by decide)⟩

/-- C10: the record decoders never validate the constructor index: for every
index `k` they decode `Constructor(k, fields)` exactly as they would
`Constructor(0, fields)`, and a well-typed datum with an adversarial index
(99 at the record node, 3 and 5 at inner nodes) decodes successfully. -/
theorem parse_ignores_constructor_index :
    (∀ (k : Nat) (fs : List PDataJS),
      parseIdentityLinkage (PDataJS.constr k fs) = parseIdentityLinkage (PDataJS.constr 0 fs)) ∧
    (∀ (k : Nat) (fs : List PDataJS),
      parsePolicyDatum (PDataJS.constr k fs) = parsePolicyDatum (PDataJS.constr 0 fs)) ∧
    parsePolicyDatum (PDataJS.constr 99 demoDatumFields) = Except.ok demoParsedPolicy ∧
    parseIdentityLinkage (PDataJS.constr 7 [.constr 1 [], .constr 0 [], .constr 1 []]) =
      Except.ok ⟨true, false, true⟩ := by
  refine ⟨fun k fs => ?_, fun k fs => ?_, rfl, rfl⟩
  · rcases fs with _ | ⟨a, _ | ⟨b, _ | ⟨c, _ | ⟨d, rest⟩⟩⟩⟩ <;> rfl
  · rcases fs with _ | ⟨a, _ | ⟨b, _ | ⟨c, _ | ⟨d, _ | ⟨e, _ | ⟨f, _ | ⟨g, rest⟩⟩⟩⟩⟩⟩⟩ <;> rfl

/-- C6: the `id` field never participates in the encoded form: two policies
equal in every field but `id` build identical datums and serialize
identically, and every successfully decoded policy carries `id = ""`, so the
decode result holds no information from the original `id`. -/
theorem id_not_encoded :
    (∀ p1 p2 : SPALPolicy,
      p1.ownerPkh = p2.ownerPkh → p1.minPayment = p2.minPayment →
      p1.maxRetentionMs = p2.maxRetentionMs → p1.identityLinkage = p2.identityLinkage →
      p1.requiredProofHash = p2.requiredProofHash → p1.contextScope = p2.contextScope →
      buildPolicyDatum p1 = buildPolicyDatum p2 ∧ serializeDatum p1 = serializeDatum p2) ∧
    (∀ (d : PDataJS) (p : SPALPolicy), parsePolicyDatum d = Except.ok p → p.id = "") := by
  constructor
  · intro p1 p2 h1 h2 h3 h4 h5 h6
    have hb : buildPolicyDatum p1 = buildPolicyDatum p2 := by
      unfold buildPolicyDatum
      rw [h1, h2, h3, h4, h5, h6]
    exact ⟨hb, congrArg dataTo hb⟩
  · intro d p h
    cases d with
    | int i => simp [parsePolicyDatum] at h
    | str s => simp [parsePolicyDatum] at h
    | constr k fs =>
      rcases fs with _ | ⟨a, _ | ⟨b, _ | ⟨c, _ | ⟨d, _ | ⟨e, _ | ⟨f, _ | ⟨g, rest⟩⟩⟩⟩⟩⟩⟩
      · simp [parsePolicyDatum] at h
      · simp [parsePolicyDatum] at h
      · simp [parsePolicyDatum] at h
      · simp [parsePolicyDatum] at h
      · simp [parsePolicyDatum] at h
      · simp [parsePolicyDatum] at h
      · cases hj : parseIdentityLinkage d with
        | error e => simp [parsePolicyDatum, hj, bind, Except.bind] at h
        | ok linkage =>
          simp only [parsePolicyDatum, hj, Except.bind, Except.ok.injEq, bind] at h
          rw [← h]
      · simp [parsePolicyDatum] at h

/-- Witness for `id_not_encoded`: two concrete policies differing only in
`id` with equal serializations, and a concrete successful decode whose result
has an empty `id`. -/
theorem id_not_encoded_witness :
    serializeDatum policyAll = serializeDatum { policyAll with id := "другой" } ∧
    demoParsedPolicy.id = "" :=
  ⟨((id_not_encoded.1 policyAll { policyAll with id := "другой" }
      rfl rfl rfl rfl rfl rfl).2),
    id_not_encoded.2 (PDataJS.constr 0 demoDatumFields) demoParsedPolicy rfl⟩

/-- C5 counterexample: `id` is a field of `Policy`, and two policies
differing only in `id` are distinct yet serialize to identical output, so
encoding is not injective over all pairs of distinct policies. -/
theorem serialize_injective_counterexample :
    (policyAll ≠ { policyAll with id := "p2" }) ∧
    serializeDatum policyAll = serializeDatum { policyAll with id := "p2" } :=
  ⟨by decide, rfl⟩

/-- Concrete policy whose `contextScope` round-trips through UTF-8 but whose
`ownerPkh` is not a hexadecimal string. -/
def badOwnerPolicy : SPALPolicy :=
  { id := "p", ownerPkh := "zz", minPayment := 0, maxRetentionMs := 0,
    identityLinkage := ⟨false, false, false⟩, requiredProofHash := "",
    contextScope := "medical/allergies" }

/-- C8 counterexample: a policy whose `contextScope` round-trips through
UTF-8 can still fail to serialize, because the non-hex `ownerPkh` makes the
byte-string lowering of `Data.to` throw. -/
theorem serialize_fails_nonhex_owner_counterexample :
    utf8Decode (utf8Encode badOwnerPolicy.contextScope.data) = badOwnerPolicy.contextScope.data ∧
    serializeDatum badOwnerPolicy = Except.error "Data.to: invalid hex in byte string" :=
  ⟨by decide, rfl⟩

/-! ## Hexadecimal round-trip lemmas -/

/-- Parsing a rendered hex digit recovers the digit value. -/
theorem hexCharVal_digitChar : ∀ x : Fin 16, hexCharVal? (Nat.digitChar x.val) = some x.val := by
  decide

/-- Decimal-digit characters: parse value and rendering. -/
theorem hex_digit_decimal : ∀ x : Fin 10,
    hexCharVal? (Char.ofNat (48 + x.val)) = some x.val ∧
      Nat.digitChar x.val = Char.ofNat (48 + x.val) := by
  decide

/-- Lowercase letter hex digits: parse value and rendering. -/
theorem hex_digit_letter : ∀ x : Fin 6,
    hexCharVal? (Char.ofNat (97 + x.val)) = some (x.val + 10) ∧
      Nat.digitChar (x.val + 10) = Char.ofNat (97 + x.val) := by
  decide

/-- Strict hex parsing inverts lowercase hex rendering of bytes. -/
theorem hexToBytesStrict_bytesToHex :
    ∀ (bs : List Nat), (∀ b ∈ bs, b < 256) → hexToBytesStrict (bytesToHex bs) = some bs
  | [], _ => rfl
  | b :: rest, h => by
    have hb : b < 256 := h b (by simp)
    have hhi : hexCharVal? (Nat.digitChar (b / 16)) = some (b / 16) :=
      hexCharVal_digitChar ⟨b / 16, by omega⟩
    have hlo : hexCharVal? (Nat.digitChar (b % 16)) = some (b % 16) :=
      hexCharVal_digitChar ⟨b % 16, by omega⟩
    have ih := hexToBytesStrict_bytesToHex rest (fun x hx => h x (by simp [hx]))
    simp only [bytesToHex, List.flatMap_cons, byteToHex, List.cons_append,
      List.nil_append] at ih ⊢
    simp only [hexToBytesStrict, hhi, hlo, ih]
    have hval : b / 16 * 16 + b % 16 = b := by omega
    rw [hval]

/-- The source's lenient `hexToString` byte parsing also inverts lowercase hex
rendering of bytes. -/
theorem chunkVal_bytesToHex :
    ∀ (bs : List Nat), (∀ b ∈ bs, b < 256) →
      (chunkPairs (bytesToHex bs)).map hexChunkVal = bs
  | [], _ => rfl
  | b :: rest, h => by
    have hb : b < 256 := h b (by simp)
    have hhi : hexCharVal? (Nat.digitChar (b / 16)) = some (b / 16) :=
      hexCharVal_digitChar ⟨b / 16, by omega⟩
    have hlo : hexCharVal? (Nat.digitChar (b % 16)) = some (b % 16) :=
      hexCharVal_digitChar ⟨b % 16, by omega⟩
    have ih := chunkVal_bytesToHex rest (fun x hx => h x (by simp [hx]))
    simp only [bytesToHex, List.flatMap_cons, byteToHex, List.cons_append,
      List.nil_append] at ih ⊢
    simp only [chunkPairs, List.map_cons, hexChunkVal, hhi, hlo, ih]
    have hval : b / 16 * 16 + b % 16 = b := by omega
    rw [hval]

/-- Every lowercase hex digit character is the rendering of its parse value. -/
theorem lower_hex_char (c : Char) (h : isLowerHexDigit c) :
    ∃ d, d < 16 ∧ hexCharVal? c = some d ∧ Nat.digitChar d = c := by
  have hofn := Char.ofNat_toNat c
  rcases h with ⟨h1, h2⟩ | ⟨h1, h2⟩
  · simp [Char.le_def] at h1 h2
    have h1n : 48 ≤ c.toNat := h1
    have h2n : c.toNat ≤ 57 := h2
    have hx : hexCharVal? (Char.ofNat (48 + (c.toNat - 48))) = some (c.toNat - 48) ∧
        Nat.digitChar (c.toNat - 48) = Char.ofNat (48 + (c.toNat - 48)) :=
      hex_digit_decimal ⟨c.toNat - 48, by omega⟩
    have he : 48 + (c.toNat - 48) = c.toNat := by omega
    rw [he, hofn] at hx
    exact ⟨c.toNat - 48, by omega, hx.1, hx.2⟩
  · simp [Char.le_def] at h1 h2
    have h1n : 97 ≤ c.toNat := h1
    have h2n : c.toNat ≤ 102 := h2
    have hx : hexCharVal? (Char.ofNat (97 + (c.toNat - 97))) = some (c.toNat - 97 + 10) ∧
        Nat.digitChar (c.toNat - 97 + 10) = Char.ofNat (97 + (c.toNat - 97)) :=
      hex_digit_letter ⟨c.toNat - 97, by omega⟩
    have he : 97 + (c.toNat - 97) = c.toNat := by omega
    rw [he, hofn] at hx
    exact ⟨c.toNat - 97 + 10, by omega, hx.1, hx.2⟩

/-- A canonical (even-length, lowercase) hex string strictly parses to a byte
sequence that renders back to the same string. -/
theorem canonical_hex_list :
    ∀ (l : List Char), l.length % 2 = 0 → (∀ c ∈ l, isLowerHexDigit c) →
      ∃ bs, hexToBytesStrict l = some bs ∧ (∀ b ∈ bs, b < 256) ∧ bytesToHex bs = l
  | [], _, _ => ⟨[], rfl, by simp, rfl⟩
  | [c], hpar, _ => by simp at hpar
  | c1 :: c2 :: rest, hpar, hdig => by
    obtain ⟨bs, h1, h2, h3⟩ := canonical_hex_list rest
      (by simp only [List.length_cons] at hpar; omega)
      (fun c hc => hdig c (by simp [hc]))
    obtain ⟨d1, hd1, hv1, hc1⟩ := lower_hex_char c1 (hdig c1 (by simp))
    obtain ⟨d2, hd2, hv2, hc2⟩ := lower_hex_char c2 (hdig c2 (by simp))
    refine ⟨(d1 * 16 + d2) :: bs, ?_, ?_, ?_⟩
    · simp only [hexToBytesStrict, hv1, hv2, h1]
    · intro b hb
      rcases List.mem_cons.1 hb with rfl | hb
      · omega
      · exact h2 b hb
    · simp only [bytesToHex, List.flatMap_cons, byteToHex]
      have e1 : (d1 * 16 + d2) / 16 = d1 := by omega
      have e2 : (d1 * 16 + d2) % 16 = d2 := by omega
      rw [e1, e2, hc1, hc2]
      simp only [bytesToHex] at h3
      rw [h3]
      rfl

/-! ## UTF-8 round-trip lemmas -/

/-- Validity range of a Unicode scalar value carried by `Char`. -/
theorem char_valid_ranges (c : Char) :
    c.toNat < 0xD800 ∨ (0xDFFF < c.toNat ∧ c.toNat < 0x110000) :=
  c.valid

/-- Decoding the UTF-8 bytes of one character, followed by any byte tail,
yields that character followed by the decoded tail. -/
theorem utf8Decode_encodeChar (c : Char) (bs : List Nat) :
    utf8Decode (utf8EncodeChar c ++ bs) = c :: utf8Decode bs := by
  have hofn := Char.ofNat_toNat c
  have hv := char_valid_ranges c
  by_cases h1 : c.toNat < 0x80
  · rw [show utf8EncodeChar c = [c.toNat] from by rw [utf8EncodeChar, if_pos h1]]
    simp only [List.cons_append, List.nil_append]
    rw [utf8Decode.eq_def]
    dsimp only
    rw [if_pos h1, hofn]
  · by_cases h2 : c.toNat < 0x800
    · rw [show utf8EncodeChar c = [0xC0 + c.toNat / 64, 0x80 + c.toNat % 64] from by
        rw [utf8EncodeChar, if_neg h1, if_pos h2]]
      simp only [List.cons_append, List.nil_append]
      rw [utf8Decode.eq_def]
      dsimp only
      rw [if_neg (by omega), if_neg (by omega), if_pos (by omega),
        if_pos (⟨by omega, by omega⟩ : 0x80 ≤ 0x80 + c.toNat % 64 ∧ 0x80 + c.toNat % 64 < 0xC0)]
      have hval : (0xC0 + c.toNat / 64 - 0xC0) * 64 + (0x80 + c.toNat % 64 - 0x80)
          = c.toNat := by omega
      rw [hval, hofn]
    · by_cases h3 : c.toNat < 0x10000
      · rw [show utf8EncodeChar c
            = [0xE0 + c.toNat / 4096, 0x80 + c.toNat / 64 % 64, 0x80 + c.toNat % 64] from by
          rw [utf8EncodeChar, if_neg h1, if_neg h2, if_pos h3]]
        simp only [List.cons_append, List.nil_append]
        rw [utf8Decode.eq_def]
        dsimp only
        have hb1 : (if 0xE0 + c.toNat / 4096 = 0xE0 then 0xA0 else 0x80)
            ≤ 0x80 + c.toNat / 64 % 64 := by
          split_ifs with hE
          · omega
          · omega
        have hb2 : 0x80 + c.toNat / 64 % 64
            ≤ (if 0xE0 + c.toNat / 4096 = 0xED then 0x9F else 0xBF) := by
          split_ifs with hE
          · rcases hv with hlow | ⟨hhi, _⟩
            · omega
            · omega
          · omega
        rw [if_neg (by omega), if_neg (by omega), if_neg (by omega), if_pos (by omega),
          if_pos ⟨hb1, hb2⟩,
          if_pos (⟨by omega, by omega⟩ : 0x80 ≤ 0x80 + c.toNat % 64 ∧ 0x80 + c.toNat % 64 < 0xC0)]
        have hval : (0xE0 + c.toNat / 4096 - 0xE0) * 4096
            + (0x80 + c.toNat / 64 % 64 - 0x80) * 64 + (0x80 + c.toNat % 64 - 0x80)
            = c.toNat := by omega
        rw [hval, hofn]
      · have h4 : c.toNat < 0x110000 := by
          rcases hv with hlow | ⟨_, hhi⟩
          · omega
          · omega
        rw [show utf8EncodeChar c
            = [0xF0 + c.toNat / 262144, 0x80 + c.toNat / 4096 % 64,
                0x80 + c.toNat / 64 % 64, 0x80 + c.toNat % 64] from by
          rw [utf8EncodeChar, if_neg h1, if_neg h2, if_neg h3]]
        simp only [List.cons_append, List.nil_append]
        rw [utf8Decode.eq_def]
        dsimp only
        have hb1 : (if 0xF0 + c.toNat / 262144 = 0xF0 then 0x90 else 0x80)
            ≤ 0x80 + c.toNat / 4096 % 64 := by
          split_ifs with hF
          · omega
          · omega
        have hb2 : 0x80 + c.toNat / 4096 % 64
            ≤ (if 0xF0 + c.toNat / 262144 = 0xF4 then 0x8F else 0xBF) := by
          split_ifs with hF
          · omega
          · omega
        rw [if_neg (by omega), if_neg (by omega), if_neg (by omega), if_neg (by omega),
          if_pos (by omega), if_pos ⟨hb1, hb2⟩,
          if_pos (⟨by omega, by omega⟩ :
            0x80 ≤ 0x80 + c.toNat / 64 % 64 ∧ 0x80 + c.toNat / 64 % 64 < 0xC0),
          if_pos (⟨by omega, by omega⟩ : 0x80 ≤ 0x80 + c.toNat % 64 ∧ 0x80 + c.toNat % 64 < 0xC0)]
        have hval : (0xF0 + c.toNat / 262144 - 0xF0) * 262144
            + (0x80 + c.toNat / 4096 % 64 - 0x80) * 4096
            + (0x80 + c.toNat / 64 % 64 - 0x80) * 64 + (0x80 + c.toNat % 64 - 0x80)
            = c.toNat := by omega
        rw [hval, hofn]

/-- UTF-8 decoding inverts UTF-8 encoding. -/
theorem utf8Decode_utf8Encode (s : List Char) : utf8Decode (utf8Encode s) = s := by
  induction s with
  | nil => rfl
  | cons c cs ih =>
    rw [utf8Encode, List.flatMap_cons, utf8Decode_encodeChar]
    rw [utf8Encode] at ih
    rw [ih]

/-- UTF-8 encoded bytes are bytes. -/
theorem utf8Encode_lt (s : List Char) : ∀ b ∈ utf8Encode s, b < 256 := by
  intro b hb
  rcases List.mem_flatMap.1 hb with ⟨c, _, hbc⟩
  have hv := char_valid_ranges c
  have h4 : c.toNat < 0x110000 := by
    rcases hv with hlow | ⟨_, hhi⟩
    · omega
    · omega
  unfold utf8EncodeChar at hbc
  split_ifs at hbc <;> simp at hbc <;> omega

/-! ## Serialization round trip -/

/-- Rebuilding a string from its character list is the identity. -/
theorem string_mk_data (s : String) : String.mk s.data = s := rfl

/-- The hex rendering of a UTF-8 encoded string always parses strictly. -/
theorem stringToHex_parses (s : String) :
    hexToBytesStrict (stringToHex s).data = some (utf8Encode s.data) :=
  hexToBytesStrict_bytesToHex _ (utf8Encode_lt _)

/-- Boolean constructor indices decode back to the encoded boolean. -/
theorem boolToData_roundTrip (b : Bool) : dataToBool (boolToData b) = Except.ok b := by
  cases b <;> rfl

/-- Round trip of `serializeDatum` / `deserializeDatum` on policies whose
byte-array fields are canonical lowercase hex: serialization succeeds and
deserialization returns the policy with `id` cleared. -/
theorem serialize_roundTrip (p : SPALPolicy) (h1 : CanonicalHex p.ownerPkh)
    (h2 : CanonicalHex p.requiredProofHash) :
    ∃ w, serializeDatum p = Except.ok w ∧
      deserializeDatum w = Except.ok { p with id := "" } := by
  obtain ⟨bo, ho1, ho2, ho3⟩ := canonical_hex_list p.ownerPkh.data h1.1 h1.2
  obtain ⟨br, hr1, hr2, hr3⟩ := canonical_hex_list p.requiredProofHash.data h2.1 h2.2
  have hcs1 := stringToHex_parses p.contextScope
  refine ⟨PData.constr 0 [.bytes bo, .int p.minPayment, .int p.maxRetentionMs,
      .constr 0 [.constr (if p.identityLinkage.ephemeralRequired then 1 else 0) [],
        .constr (if p.identityLinkage.proofOfRootAllowed then 1 else 0) [],
        .constr (if p.identityLinkage.zkContinuityAllowed then 1 else 0) []],
      .bytes br, .bytes (utf8Encode p.contextScope.data)], ?_, ?_⟩
  · simp only [serializeDatum, buildPolicyDatum, buildIdentityLinkage, boolToData,
      dataTo, dataToList, ho1, hr1, hcs1, bind, Except.bind, Except.map]
  · simp only [deserializeDatum, dataFrom, dataFromList, parsePolicyDatum,
      parseIdentityLinkage, dataToBool, asStr, asInt, bind, Except.bind]
    rw [show String.mk (bytesToHex bo) = p.ownerPkh from by rw [ho3]]
    rw [show String.mk (bytesToHex br) = p.requiredProofHash from by rw [hr3]]
    have hcs2 : hexToString (String.mk (bytesToHex (utf8Encode p.contextScope.data)))
        = p.contextScope := by
      rw [hexToString]
      rw [show (String.mk (bytesToHex (utf8Encode p.contextScope.data))).data
          = bytesToHex (utf8Encode p.contextScope.data) from rfl]
      rw [chunkVal_bytesToHex _ (utf8Encode_lt _), utf8Decode_utf8Encode]
    rw [hcs2]
    have hb1 : ((if p.identityLinkage.ephemeralRequired then 1 else 0 : Nat) == 1)
        = p.identityLinkage.ephemeralRequired := by
      cases p.identityLinkage.ephemeralRequired <;> rfl
    have hb2 : ((if p.identityLinkage.proofOfRootAllowed then 1 else 0 : Nat) == 1)
        = p.identityLinkage.proofOfRootAllowed := by
      cases p.identityLinkage.proofOfRootAllowed <;> rfl
    have hb3 : ((if p.identityLinkage.zkContinuityAllowed then 1 else 0 : Nat) == 1)
        = p.identityLinkage.zkContinuityAllowed := by
      cases p.identityLinkage.zkContinuityAllowed <;> rfl
    rw [hb1, hb2, hb3]

/-- Concrete valid policy fixture with a 28-byte lowercase-hex owner key
hash. -/
def roundTripPolicy : SPALPolicy :=
  { id := "spal:policy:demo",
    ownerPkh := "ab01cd23ef45ab01cd23ef45ab01cd23ef45ab01cd23ef45ab01cd23",
    minPayment := 1000000, maxRetentionMs := 86400000,
    identityLinkage := ⟨true, false, true⟩, requiredProofHash := "abcd1234",
    contextScope := "medical/allergies" }

/-- C2: for every valid `Policy`, serialization succeeds and deserializing
the produced datum returns the policy with every field intact except `id`,
which is cleared; in particular deserialization never raises on an input
produced by serialization. -/
theorem serialize_deserialize_roundTrip (p : SPALPolicy) (h : ValidPolicy p) :
    ∃ w, serializeDatum p = Except.ok w ∧
      deserializeDatum w = Except.ok { p with id := "" } :=
  serialize_roundTrip p h.1 h.2.2.1

/-- Witness for `serialize_deserialize_roundTrip`: the round trip at a
concrete valid policy. -/
theorem serialize_deserialize_roundTrip_witness :
    ValidPolicy roundTripPolicy ∧
    ∃ w, serializeDatum roundTripPolicy = Except.ok w ∧
      deserializeDatum w = Except.ok { roundTripPolicy with id := "" } :=
  ⟨by decide, serialize_deserialize_roundTrip roundTripPolicy (by decide)⟩

/-- C5 as amended: encoding is injective over policies that differ in at
least one field other than `id`, provided the two hex byte-array fields are
in the canonical lowercase form; two such policies have distinct serialized
outputs.  (The original claim fails only because `id` is excluded from the
encoding, and because non-canonical hex spellings of the same bytes
coincide after serialization.) -/
theorem serialize_injective_amended (p1 p2 : SPALPolicy)
    (hc1 : CanonicalHex p1.ownerPkh) (hc2 : CanonicalHex p1.requiredProofHash)
    (hc3 : CanonicalHex p2.ownerPkh) (hc4 : CanonicalHex p2.requiredProofHash)
    (hdiff : p1.ownerPkh ≠ p2.ownerPkh ∨ p1.minPayment ≠ p2.minPayment ∨
      p1.maxRetentionMs ≠ p2.maxRetentionMs ∨ p1.identityLinkage ≠ p2.identityLinkage ∨
      p1.requiredProofHash ≠ p2.requiredProofHash ∨ p1.contextScope ≠ p2.contextScope) :
    serializeDatum p1 ≠ serializeDatum p2 := by
  obtain ⟨w1, hs1, hd1⟩ := serialize_roundTrip p1 hc1 hc2
  obtain ⟨w2, hs2, hd2⟩ := serialize_roundTrip p2 hc3 hc4
  intro heq
  rw [hs1, hs2] at heq
  obtain rfl : w1 = w2 := by
    injection heq
  rw [hd1] at hd2
  have hrec : ({ p1 with id := "" } : SPALPolicy) = { p2 with id := "" } := by
    injection hd2
  simp only [SPALPolicy.mk.injEq, true_and] at hrec
  obtain ⟨e1, e2, e3, e4, e5, e6⟩ := hrec
  rcases hdiff with h | h | h | h | h | h <;> exact h (by assumption)

/-- Witness for `serialize_injective_amended`: two concrete policies
differing only in `contextScope` have distinct serialized outputs
(the spec's Scenario E). -/
theorem serialize_injective_amended_witness :
    serializeDatum roundTripPolicy ≠
      serializeDatum { roundTripPolicy with contextScope := "financial/income" } :=
  serialize_injective_amended _ _ (by decide) (by decide) (by decide) (by decide)
    (Or.inr (Or.inr (Or.inr (Or.inr (Or.inr (by decide))))))

/-- C8 as amended: serialization of a policy succeeds exactly when
`ownerPkh` and `requiredProofHash` are even-length hexadecimal strings (the
byte-array lowering of `Data.to` fails on anything else); `contextScope`
never causes a failure, because the UTF-8 hex rendering of `stringToHex` is
total and always produces parseable hex. -/
theorem serialize_fails_iff (p : SPALPolicy) :
    (∃ w, serializeDatum p = Except.ok w) ↔
      ((hexToBytesStrict p.ownerPkh.data).isSome ∧
        (hexToBytesStrict p.requiredProofHash.data).isSome) := by
  rcases ho : hexToBytesStrict p.ownerPkh.data with _ | bo
  · simp [serializeDatum, buildPolicyDatum, buildIdentityLinkage, boolToData,
      dataTo, dataToList, ho, bind, Except.bind, Except.map]
  · rcases hr : hexToBytesStrict p.requiredProofHash.data with _ | br
    · simp [serializeDatum, buildPolicyDatum, buildIdentityLinkage, boolToData,
        dataTo, dataToList, ho, hr, bind, Except.bind, Except.map]
    · simp [serializeDatum, buildPolicyDatum, buildIdentityLinkage, boolToData,
        dataTo, dataToList, ho, hr, stringToHex_parses p.contextScope,
        bind, Except.bind, Except.map]

/-- Witness for `validate_valid_iff`: the iff applied at a concrete policy
and request, in the direction that produces a valid outcome from the three
discharged conditions. -/
theorem validate_valid_iff_witness :
    (validate policyAll requestFull).valid = true :=
  (validate_valid_iff policyAll requestFull).2 ⟨by decide, by decide, by decide⟩

/-- Witness for `bool_codec_amended`: the decoder clause applied at the
adversarial constructor index 5. -/
theorem bool_codec_amended_witness :
    dataToBool (PDataJS.constr 5 []) = Except.ok false :=
  bool_codec_amended.2.2.1 5 []

/-- Witness for `parse_ignores_constructor_index`: the index-ignoring clause
applied at the concrete index 42. -/
theorem parse_ignores_constructor_index_witness :
    parsePolicyDatum (PDataJS.constr 42 demoDatumFields)
      = parsePolicyDatum (PDataJS.constr 0 demoDatumFields) :=
  parse_ignores_constructor_index.2.1 42 demoDatumFields

/-- Witness for `serialize_fails_iff`: the success direction applied at the
concrete valid policy. -/
theorem serialize_fails_iff_witness :
    ∃ w, serializeDatum roundTripPolicy = Except.ok w :=
  (serialize_fails_iff roundTripPolicy).2 ⟨by decide, by decide⟩
